import Mathlib

/-!
Shallow embedding of the KCS-report transform layer
(`src/transform/metrics.py`, `src/transform/clean.py`) and proofs about it.

Modelling conventions:
* A Python string is a list of Unicode code points (`Str := List Nat`);
  `.strip()` removes ASCII whitespace from both ends, `.upper()` / `.lower()` /
  `.casefold()` act on the ASCII letter ranges (all string constants in the
  source are ASCII apart from the en dash U+2013, which those maps fix).
* A pandas DataFrame of case / article records is a `List` of records; a
  boolean mask is a `Bool`-valued row predicate, `mask.sum()` is `countP`.
* Nullable columns are `Option`-valued; pandas `.str` accessors propagate
  null as `NaN`, which `isin` / `==` then treat as no-match (`false`) and
  `!=` treats as a match (`true`) — each use site mirrors this.
* `pd.Timestamp` is a calendar date plus a time-of-day (`TS`), ordered
  lexicographically; `round(x, 3)` is exact-rational rounding to three
  decimals with ties to even (Python's rounding mode, ignoring binary
  floating-point representation error).
-/

/-- A Python string as a list of Unicode code points. -/
abbrev Str := List Nat

/-- Code points of a Lean string literal, used to write the constants. -/
def strC (s : String) : Str := s.data.map Char.toNat

/-- ASCII whitespace test used by `.strip()` (space and U+0009–U+000D). -/
def isSpaceC (c : Nat) : Bool := decide (c = 32 ∨ (9 ≤ c ∧ c ≤ 13))

/-- Membership of a string in a list of strings (pandas `isin`, Python `in`). -/
def memB (x : Str) : List Str → Bool
  | [] => false
  | w :: ws => x == w || memB x ws

/-- Embedding of Python `str.strip()`: drop whitespace from both ends. -/
def stripL (s : Str) : Str :=
  List.reverse (List.dropWhile isSpaceC (List.reverse (List.dropWhile isSpaceC s)))

/-- Uppercase one code point (`a`–`z` to `A`–`Z`, others unchanged). -/
def upC (c : Nat) : Nat := if 97 ≤ c ∧ c ≤ 122 then c - 32 else c

/-- Lowercase one code point (`A`–`Z` to `a`–`z`, others unchanged). -/
def lowC (c : Nat) : Nat := if 65 ≤ c ∧ c ≤ 90 then c + 32 else c

/-- Embedding of Python `str.upper()`. -/
def upperL (s : Str) : Str := s.map upC

/-- Embedding of Python `str.lower()` and, on this ASCII data, `str.casefold()`. -/
def lowerL (s : Str) : Str := s.map lowC

/-- Does `needle` occur at the head of the second list? -/
def leadsWith : Str → Str → Bool
  | [], _ => true
  | _ :: _, [] => false
  | a :: as, b :: bs => a == b && leadsWith as bs

/-- Substring test: does `hay` contain `needle` (Python `needle in hay`)? -/
def hasSub : Str → Str → Bool
  | [], needle => needle.isEmpty
  | a :: t, needle => leadsWith needle (a :: t) || hasSub t needle

/-- Helper for `uniqFirst`: keep elements not yet seen. -/
def uniqFirstAux {α : Type} [BEq α] (seen : List α) : List α → List α
  | [] => []
  | a :: as =>
    if seen.elem a then uniqFirstAux seen as
    else a :: uniqFirstAux (a :: seen) as

/-- First-occurrence deduplication, as pandas `Series.unique()`. -/
def uniqFirst {α : Type} [BEq α] (l : List α) : List α := uniqFirstAux [] l

/-- A pandas `Timestamp`: calendar date plus time-of-day in seconds. -/
structure TS where
  y : Nat
  m : Nat
  d : Nat
  t : Nat
deriving DecidableEq, Repr

/-- Lexicographic order on timestamps (year, month, day, time-of-day). -/
def tsLe (a b : TS) : Bool :=
  Nat.blt a.y b.y ||
    (a.y == b.y && (Nat.blt a.m b.m ||
      (a.m == b.m && (Nat.blt a.d b.d || (a.d == b.d && Nat.ble a.t b.t)))))

/-- Date-only comparison (`Timestamp.date()` order), ignoring time-of-day. -/
def dateLe (a b : TS) : Bool :=
  Nat.blt a.y b.y ||
    (a.y == b.y && (Nat.blt a.m b.m || (a.m == b.m && Nat.ble a.d b.d)))

/-- Calendar month of a timestamp as a single integer (`to_period("M")`). -/
def monthIdx (ts : TS) : ℤ := (ts.y : ℤ) * 12 + (ts.m : ℤ) - 1

/-- Gregorian leap-year test. -/
def isLeap (y : Nat) : Bool := (y % 4 == 0 && y % 100 != 0) || (y % 400 == 0)

/-- Number of days in a Gregorian calendar month. -/
def daysInMonth (y m : Nat) : Nat :=
  if m = 2 then (if isLeap y then 29 else 28)
  else if m = 4 ∨ m = 6 ∨ m = 9 ∨ m = 11 then 30
  else 31

/-- Subtract one day (`ts - pd.Timedelta(days=1)`), keeping the time-of-day. -/
def prevDay (ts : TS) : TS :=
  if 1 < ts.d then { ts with d := ts.d - 1 }
  else if 1 < ts.m then
    { y := ts.y, m := ts.m - 1, d := daysInMonth ts.y (ts.m - 1), t := ts.t }
  else { y := ts.y - 1, m := 12, d := 31, t := ts.t }

/-- One support-case record: the canonical columns produced by `clean_cases`
that the metric functions under verification actually read (the remaining
columns — product, owner_name, age, … — are carried along but never
inspected by any claim's code path). -/
structure CaseRec where
  case_id : Nat
  created_date : TS
  closed_date : Option TS
  region : Option Str
  owner_role : Str
  owner_company : Str
  status : Str
  close_reason : Option Str
  case_record_type : Str
deriving DecidableEq, Repr

/-- The fixed list of KCS-valid close reasons (`CLOSE_REASONS`). -/
def CLOSE_REASONS : List Str :=
  [strC "Solved by existing article", strC "Solved by existing doc",
   strC "Article Updated", strC "Article Flagged", strC "Article Created"]

/-- Embedding of Python `round(x, 3)` on exact rationals: the nearest
multiple of 1/1000, ties to even (Python's rounding mode, ignoring binary
floating-point representation error).  Written on the integer numerator and
denominator so concrete instances evaluate by kernel reduction: `f` is
⌊q·1000⌋ and `r` the remainder, so `2r < d` means the fractional part is
below one half. -/
def round3 (q : ℚ) : ℚ :=
  let n : ℤ := q.num * 1000
  let d : ℤ := (q.den : ℤ)
  let f : ℤ := n.fdiv d
  let r : ℤ := n - f * d
  let z : ℤ :=
    if 2 * r < d then f
    else if d < 2 * r then f + 1
    else if f % 2 = 0 then f else f + 1
  Rat.divInt z 1000

/-- Shared ratio helper `_ratio`: `round(num/denom, 3)` when the denominator
count is nonzero, `None` otherwise. -/
def ratioOf (num den : Nat) : Option ℚ :=
  if den = 0 then none else some (round3 (Rat.divInt (num : ℤ) (den : ℤ)))

/-- Mask `close_reason.notna()`. -/
def rowNotna (r : CaseRec) : Bool := r.close_reason.isSome

/-- Mask `close_reason.str.strip().isin(CLOSE_REASONS)` (null gives `false`). -/
def stripMemClose (cr : Option Str) : Bool :=
  match cr with
  | some s => memB (stripL s) CLOSE_REASONS
  | none => false

/-- Mask `status.str.strip() != "Closed – Purged"` (on non-null status). -/
def statusNotPurged (r : CaseRec) : Bool :=
  !(stripL r.status == strC "Closed – Purged")

/-- Mask `owner_role.str.contains(r"Support|Idaptive|EPM", case=False)`. -/
def roleMatch (role : Str) : Bool :=
  hasSub (lowerL role) (strC "support") || hasSub (lowerL role) (strC "idaptive")
    || hasSub (lowerL role) (strC "epm")

/-- Mask `case_record_type.str.strip() == "External"`. -/
def recordExternal (r : CaseRec) : Bool :=
  stripL r.case_record_type == strC "External"

/-- Normalized region value: `region.str.strip().str.upper()`, null kept null. -/
def normStr (s : Str) : Str := upperL (stripL s)

/-- Normalized region of a nullable region column entry. -/
def normRegion (reg : Option Str) : Option Str := reg.map normStr

/-- Mask `region.str.strip().str.upper().isin(l)` (null region gives `false`,
so the negated form used by `valid_mask` lets null regions through). -/
def regionIn (reg : Option Str) (l : List Str) : Bool :=
  match reg with
  | some s => memB (normStr s) l
  | none => false

/-- The full `valid_mask` of `close_reason_ratio`: non-null close reason,
trimmed close reason in `CLOSE_REASONS`, trimmed status not the purge
sentinel, owner role matching Support/Idaptive/EPM, trimmed record type
External, and normalized region not ADMIN/INTERNAL. -/
def rowValid (r : CaseRec) : Bool :=
  rowNotna r && stripMemClose r.close_reason && statusNotPurged r
    && roleMatch r.owner_role && recordExternal r
    && !(regionIn r.region [strC "ADMIN", strC "INTERNAL"])

/-- Comparison of a row's normalized region with a group key from
`unique()`; pandas `NaN == NaN` is false, so a null key matches no row. -/
def regKeyEq (reg : Option Str) (key : Option Str) : Bool :=
  match key with
  | none => false
  | some k => normRegion reg == some k

/-- Result type of `close_reason_ratio`: a single optional ratio
(`region=None` or a specific region) or a per-region mapping (`"ALL"`). -/
inductive RatioResult where
  | single (q : Option ℚ)
  | perRegion (rs : List (Option Str × Option ℚ))
deriving DecidableEq, Repr

/-- Embedding of `close_reason_ratio(df_cases, region)`. -/
def closeReasonRatio (df : List CaseRec) (region : Option Str) : RatioResult :=
  match region with
  | none => .single (ratioOf (df.countP rowValid) (df.countP rowNotna))
  | some s =>
    if upperL s == strC "ALL" then
      .perRegion ((uniqFirst (df.map (fun r => normRegion r.region))).map
        (fun key =>
          (key,
           ratioOf (df.countP (fun r => rowValid r && regKeyEq r.region key))
                   (df.countP (fun r => rowNotna r && regKeyEq r.region key)))))
    else
      .single
        (ratioOf
          (df.countP (fun r => rowValid r && (normRegion r.region == some (upperL s))))
          (df.countP (fun r => rowNotna r && (normRegion r.region == some (upperL s)))))

/-- The `region=None` ratio (the default used by the month groupings). -/
def crrGlobal (df : List CaseRec) : Option ℚ :=
  ratioOf (df.countP rowValid) (df.countP rowNotna)

/-- Boolean order on integers, for sorting group keys. -/
def intLe (a b : ℤ) : Bool := decide (a ≤ b)

/-- Lexicographic order on code-point strings, as pandas sorts string keys. -/
def strLe : Str → Str → Bool
  | [], _ => true
  | _ :: _, [] => false
  | a :: as, b :: bs => Nat.blt a b || (a == b && strLe as bs)

/-- Order on (month, region) group keys. -/
def keyLe (a b : ℤ × Str) : Bool :=
  decide (a.1 < b.1) || (a.1 == b.1 && strLe a.2 b.2)

/-- Insert into a sorted list. -/
def insertBy {α : Type} (le : α → α → Bool) (a : α) : List α → List α
  | [] => [a]
  | b :: bs => if le a b then a :: b :: bs else b :: insertBy le a bs

/-- Insertion sort, modelling the sorted group-key order of `groupby`. -/
def sortBy {α : Type} (le : α → α → Bool) : List α → List α
  | [] => []
  | a :: as => insertBy le a (sortBy le as)

/-- Embedding of `close_reason_ratio_last_n_months(df_cases, n)`: the current
month is read from the ambient `pd.Timestamp.today()`, embedded here as the
explicit `today` argument; the result is the sorted per-month `Series`
(month period index embedded as `monthIdx`). -/
def lastNMonths (today : TS) (n : Nat) (df : List CaseRec) : List (ℤ × Option ℚ) :=
  let currentMonth : ℤ := monthIdx today
  let startMonth : ℤ := currentMonth - ((n : ℤ) - 1)
  let dff := df.filter (fun r => decide (startMonth ≤ monthIdx r.created_date))
  let months := sortBy intLe (uniqFirst (dff.map (fun r => monthIdx r.created_date)))
  months.map (fun m =>
    (m, crrGlobal (dff.filter (fun r => monthIdx r.created_date == m))))

/-- Embedding of `close_reason_ratio_last_n_months_by_region(df_cases, n)`:
rows are grouped by (month, normalized region) — `groupby` drops null keys
and iterates them in sorted order — and each group's ratio comes from
`close_reason_ratio(group)` with its default `region=None`.  The `str(month)`
label of the output record is embedded as the month index itself. -/
def byRegionMonths (today : TS) (n : Nat) (df : List CaseRec) :
    List (ℤ × Str × Option ℚ) :=
  let currentMonth : ℤ := monthIdx today
  let startMonth : ℤ := currentMonth - ((n : ℤ) - 1)
  let dff := df.filter (fun r => decide (startMonth ≤ monthIdx r.created_date))
  let keys := sortBy keyLe (uniqFirst (dff.filterMap
    (fun r => (normRegion r.region).map (fun g => (monthIdx r.created_date, g)))))
  keys.map (fun k =>
    (k.1, k.2,
     crrGlobal (dff.filter (fun r =>
       monthIdx r.created_date == k.1 && normRegion r.region == some k.2))))

/-- The `valid_mask` of `get_valid_cases_and_ratio`: as `rowValid` but with
no ADMIN/INTERNAL region exclusion.  In the source the close-reason
membership conjunct is computed over the unfiltered `df_cases`; pandas index
alignment restricts that mask to the filtered frame's row labels, whose
values `copy()` and row filtering preserve, so per filtered row it equals
this predicate. -/
def rowValidNoRegion (r : CaseRec) : Bool :=
  rowNotna r && stripMemClose r.close_reason && statusNotPurged r
    && roleMatch r.owner_role && recordExternal r

/-- Embedding of `get_valid_cases_and_ratio(df_cases, region)`. -/
def getValidCasesAndRatio (df : List CaseRec) (region : Option Str) :
    List CaseRec × Option ℚ :=
  let dff := match region with
    | some s =>
      if upperL s == strC "ALL" then df
      else df.filter (fun r => normRegion r.region == some (upperL s))
    | none => df
  (dff.filter rowValidNoRegion,
   ratioOf (dff.countP rowValidNoRegion) (dff.countP rowNotna))

/-- Embedding of the nested `get_month_week_start(dt)` of
`open_cases_week_over_week_by_region`: the bucket start keeps the year and
month and zeroes the time-of-day (`replace(day=…, hour=0, …)`). -/
def getMonthWeekStart (dt : TS) : TS :=
  if dt.d ≤ 7 then { y := dt.y, m := dt.m, d := 1, t := 0 }
  else if dt.d ≤ 14 then { y := dt.y, m := dt.m, d := 8, t := 0 }
  else if dt.d ≤ 21 then { y := dt.y, m := dt.m, d := 15, t := 0 }
  else { y := dt.y, m := dt.m, d := 22, t := 0 }

/-- Mask `close_reason.str.casefold().isin(CLOSE_REASONS)` of
`osp_kcs_engagement` (null gives `false`). -/
def caseFoldMemClose (cr : Option Str) : Bool :=
  match cr with
  | some s => memB (lowerL s) CLOSE_REASONS
  | none => false

/-- Result dict of `osp_kcs_engagement`. -/
structure OspResult where
  filtered_df : List CaseRec
  count : Nat
  close_reason_ratio : Option ℚ
  close_reason_denom : Nat
deriving DecidableEq, Repr

/-- The row mask of `osp_kcs_engagement` for a given last-month window. -/
def ospMask (lastMonthStart lastMonthEnd : TS) (r : CaseRec) : Bool :=
  (stripL r.case_record_type == strC "External")
    && (hasSub (lowerL r.owner_role) (strC "idaptive")
        || hasSub (lowerL r.owner_role) (strC "support"))
    && statusNotPurged r
    && memB r.owner_company [strC "Solugenix", strC "Helpware"]
    && tsLe lastMonthStart r.created_date && tsLe r.created_date lastMonthEnd

/-- Embedding of `osp_kcs_engagement(df_cases)`: `pd.Timestamp.today()` is
embedded as the explicit `today` argument; note that `replace(day=1)` and
the one-day subtraction keep today's time-of-day, so both window bounds
carry it. -/
def ospKcsEngagement (today : TS) (df : List CaseRec) : OspResult :=
  let firstOfThisMonth : TS := { today with d := 1 }
  let lastMonthEnd : TS := prevDay firstOfThisMonth
  let lastMonthStart : TS := { lastMonthEnd with d := 1 }
  let filtered := df.filter (ospMask lastMonthStart lastMonthEnd)
  let den := filtered.countP rowNotna
  let num := filtered.countP (fun r => rowNotna r && caseFoldMemClose r.close_reason)
  { filtered_df := filtered
    count := filtered.length
    close_reason_ratio := ratioOf num den
    close_reason_denom := den }

/-- A nullable date-or-string column entry (`published_at`): null/NaT, the
empty string, or a parsed timestamp. -/
inductive DateCell where
  | nullv
  | emptyv
  | val (ts : TS)
deriving DecidableEq, Repr

/-- One knowledge-article version record: the canonical columns produced by
`clean_articles` that the article metrics under verification read. -/
structure ArticleRec where
  article_id : Str
  article_type : Str
  creator_name : Str
  version_is_latest : Bool
  publish_status : Str
  visible_to_customers : Bool
  internal : Bool
  published_at : DateCell
  published_by_name : Str
  days_to_publish : Option ℚ
deriving DecidableEq, Repr

/-- Embedding of `count_published_articles(df, start, end)`: sequential
filters as in the source, then the distinct count (`nunique`) of
`article_id` among rows whose `published_at` parses (`errors="coerce"`
turns null/empty into `NaT`, which fails both date comparisons) and whose
date-only value lies in `[start.date(), end.date()]`. -/
def countPublishedArticles (df : List ArticleRec) (start finish : TS) : Nat :=
  let f1 := df.filter (fun r =>
    memB r.article_type [strC "FAQ", strC "How To", strC "Technical Issue"])
  let f2 := f1.filter (fun r => !(r.creator_name == strC "BI Integration"))
  let f3 := f2.filter (fun r => r.version_is_latest)
  let published := f3.filter (fun r => r.publish_status == strC "Online")
  let inRange := published.filter (fun r =>
    match r.published_at with
    | .val ts => dateLe start ts && dateLe ts finish
    | _ => false)
  (uniqFirst (inRange.map (fun r => r.article_id))).length

/-- The qualifying mask of `median_days_to_publish`. -/
def medianMask (r : ArticleRec) : Bool :=
  (r.publish_status == strC "Online")
    && r.visible_to_customers
    && r.version_is_latest
    && memB r.article_type [strC "FAQ", strC "Technical Issue", strC "How To"]
    && !(r.published_at == DateCell.nullv)
    && !(r.published_at == DateCell.emptyv)
    && !(r.published_by_name == strC "")
    && (r.internal == false)

/-- Median of a list of rationals, as pandas `Series.median`: middle element
of the sorted list, or the mean of the two middle elements. -/
def medianQ (l : List ℚ) : Option ℚ :=
  let s := sortBy (fun a b => decide (a ≤ b)) l
  if s.length = 0 then none
  else if s.length % 2 = 1 then some (s.getD (s.length / 2) 0)
  else some ((s.getD (s.length / 2 - 1) 0 + s.getD (s.length / 2) 0) / 2)

/-- Embedding of `median_days_to_publish(df)`: the masked rows' non-null
`days_to_publish` values (`dropna`), `None` when none remain. -/
def medianDaysToPublish (df : List ArticleRec) : Option ℚ :=
  let validDays := (df.filter medianMask).filterMap (fun r => r.days_to_publish)
  if validDays.isEmpty then none else medianQ validDays

/-- A raw column cell for the Normalizer: null, integer, string, boolean or
date valued. -/
inductive Cell where
  | nullv
  | intv (n : ℤ)
  | strv (s : Str)
  | boolv (b : Bool)
  | datev (ts : TS)
deriving DecidableEq, Repr

/-- A raw frame: named columns in order (column names are unique upstream). -/
abbrev RawFrame := List (Str × List Cell)

/-- Column lookup by name (first match). -/
def colLookup (f : RawFrame) (k : Str) : Option (List Cell) :=
  match f with
  | [] => none
  | (name, col) :: rest => if name == k then some col else colLookup rest k

/-- Embedding of `df[wanted.keys()].rename(columns=wanted)`: project the
wanted source columns in mapping order, renaming each to its canonical
name; a missing source column is a missing-column lookup failure (pandas
`KeyError` at projection time), and source columns not in the mapping are
dropped silently. -/
def selectRename (wanted : List (Str × Str)) (f : RawFrame) : Except Str RawFrame :=
  match wanted with
  | [] => .ok []
  | (src, dst) :: rest =>
    match colLookup f src with
    | none => .error src
    | some col =>
      match selectRename rest f with
      | .error e => .error e
      | .ok g => .ok ((dst, col) :: g)

/-- The `wanted` mapping of `clean_articles` as the Python dict literal
evaluates: the source lists the key `PUBLISHED_BY_NAME` twice (first with
value `publisher`, later with value `published_by_name`); a Python dict
keeps one entry per key, at the first insertion position, with the last
assigned value — so no `publisher` column is ever produced. -/
def wantedArticles : List (Str × Str) :=
  [(strC "PUBLISHED_BY_NAME", strC "published_by_name"),
   (strC "PUBLISHED_BY_REGION", strC "region"),
   (strC "PUBLIC_KB_VIEWCOUNT", strC "views_by_customers"),
   (strC "ARTICLE_NUMBER", strC "article_id"),
   (strC "ARTICLE_FIRST_PUBLISHED_DATE", strC "published_at"),
   (strC "DAYS_TO_PUBLISH", strC "days_to_publish"),
   (strC "ARTICLE_TYPE", strC "article_type"),
   (strC "PUBLISH_STATUS", strC "publish_status"),
   (strC "INTERNAL", strC "internal"),
   (strC "ARTILE_TITLE", strC "title"),
   (strC "COMMUNITY_ARTICLE_URL", strC "community_article_url"),
   (strC "ARTICLE_CASE_ATTACH_COUNT", strC "article_attach_count"),
   (strC "CREATOR_REGION", strC "creator_region"),
   (strC "ARTICLE_CREATED_DATE", strC "created_at"),
   (strC "CREATOR_NAME", strC "creator_name"),
   (strC "VISIBLE_IN_CUSTOMER_PORTAL", strC "visible_to_customers"),
   (strC "VERSION_IS_LATEST", strC "version_is_latest")]

/-- The view-count coercion `.fillna(0).astype(int)`: null becomes integer
zero; non-null entries of this column are already integral in the model. -/
def coerceView : Cell → Cell
  | .nullv => .intv 0
  | c => c

/-- Embedding of `clean_articles(df)`. -/
def cleanArticles (f : RawFrame) : Except Str RawFrame :=
  match selectRename wantedArticles f with
  | .error e => .error e
  | .ok g =>
    .ok (g.map (fun p =>
      if p.1 == strC "views_by_customers" then (p.1, p.2.map coerceView) else p))

/-- The `wanted` mapping of `clean_cases`. -/
def wantedCases : List (Str × Str) :=
  [(strC "CASE_NUMBER", strC "case_id"),
   (strC "CREATED_DATE", strC "created_date"),
   (strC "CLOSED_DATE", strC "closed_date"),
   (strC "REGION", strC "region"),
   (strC "PRODUCT", strC "product"),
   (strC "OWNER_NAME", strC "owner_name"),
   (strC "CREATED_BY_REGION", strC "created_by_region"),
   (strC "AGE", strC "age"),
   (strC "CUSTOMER_ACCOUNT_REGION", strC "customer_account_region"),
   (strC "ATTACHED_ARTICLE_COUNT", strC "attached_article_count"),
   (strC "CLOSE_REASON", strC "close_reason"),
   (strC "STATUS", strC "status"),
   (strC "RECORD_TYPE", strC "case_record_type"),
   (strC "OWNER_ROLE", strC "owner_role"),
   (strC "OWNER_COMPANY", strC "owner_company")]

/-- Embedding of `clean_cases(df)`. -/
def cleanCases (f : RawFrame) : Except Str RawFrame :=
  selectRename wantedCases f

/-! ### Spec-side definitions

These restate the specification's wording of the business rules, to be
compared with the code embeddings above. -/

/-- Spec §4.2 criterion 4: owner_role matches (case-insensitive substring)
one of Support, Idaptive, EPM. -/
def specRoleMatch (role : Str) : Bool :=
  hasSub (lowerL role) (lowerL (strC "Support"))
    || hasSub (lowerL role) (lowerL (strC "Idaptive"))
    || hasSub (lowerL role) (lowerL (strC "EPM"))

/-- The spec's full is-KCS-valid conjunction (§4.2 criteria 1–6): non-null
close reason whose trimmed value is in `CLOSE_REASONS`, trimmed status not
"Closed – Purged", owner-role match, trimmed record type "External", and
normalized region not in {ADMIN, INTERNAL}. -/
def specValidCase (r : CaseRec) : Bool :=
  (match r.close_reason with
   | some s => memB (stripL s) CLOSE_REASONS
   | none => false)
    && !(stripL r.status == strC "Closed – Purged")
    && specRoleMatch r.owner_role
    && (stripL r.case_record_type == strC "External")
    && (match r.region with
        | some s => !(memB (upperL (stripL s)) [strC "ADMIN", strC "INTERNAL"])
        | none => true)

/-- The spec's validity rule without criterion 6 (no ADMIN/INTERNAL region
exclusion), as used by `valid_cases_and_ratio`. -/
def specValidNoAdminExcl (r : CaseRec) : Bool :=
  (match r.close_reason with
   | some s => memB (stripL s) CLOSE_REASONS
   | none => false)
    && !(stripL r.status == strC "Closed – Purged")
    && specRoleMatch r.owner_role
    && (stripL r.case_record_type == strC "External")

/-- Restriction of a case table to a requested region (case-insensitive
match of the argument against the normalized region), no restriction when
no region is given. -/
def specRegionRestrict (df : List CaseRec) (region : Option Str) : List CaseRec :=
  match region with
  | none => df
  | some s => df.filter (fun r => normRegion r.region == some (upperL s))

/-- Replace a record's region by its trimmed, upper-cased form (the claim's
normalization of region values; null region stays null). -/
def regionCanon (r : CaseRec) : CaseRec :=
  { r with region := normRegion r.region }

/-- The claim's row filter for `count_published`: allowed article type,
creator not "BI Integration", latest version, publish status "Online", and
a `published_at` whose date-only value lies within the window. -/
def specPublishedInWindow (start finish : TS) (r : ArticleRec) : Bool :=
  memB r.article_type [strC "FAQ", strC "How To", strC "Technical Issue"]
    && !(r.creator_name == strC "BI Integration")
    && r.version_is_latest
    && (r.publish_status == strC "Online")
    && (match r.published_at with
        | .val ts => dateLe start ts && dateLe ts finish
        | _ => false)

/-- The claim's qualifying filter for `median_days_to_publish`. -/
def specMedianQualifies (r : ArticleRec) : Bool :=
  (r.publish_status == strC "Online")
    && r.visible_to_customers
    && r.version_is_latest
    && memB r.article_type [strC "FAQ", strC "Technical Issue", strC "How To"]
    && !(r.published_at == DateCell.nullv)
    && !(r.published_at == DateCell.emptyv)
    && !(r.published_by_name == strC "")
    && (r.internal == false)

/-- A concrete case record for evaluating the today-dependent functions:
created 2024-02-01 00:00:00 and passing every non-date filter of
`osp_kcs_engagement` as well as the full validity rule. -/
def probeCase : CaseRec :=
  { case_id := 1, created_date := ⟨2024, 2, 1, 0⟩, closed_date := none,
    region := some (strC "EMEA"), owner_role := strC "Support",
    owner_company := strC "Solugenix", status := strC "Open",
    close_reason := some (strC "Article Created"),
    case_record_type := strC "External" }

/-! ### String-normalization lemmas -/

lemma upC_isSpace (c : Nat) : isSpaceC (upC c) = isSpaceC c := by
  unfold upC isSpaceC
  split_ifs with h
  · rw [decide_eq_decide]; omega
  · rfl

lemma upC_idem (c : Nat) : upC (upC c) = upC c := by
  unfold upC
  split_ifs <;> omega

lemma stripL_eq (s : Str) : stripL s = List.rdropWhile isSpaceC (List.dropWhile isSpaceC s) :=
  rfl

lemma dropWhile_rdropWhile_of_self {p : Nat → Bool} {l : List Nat}
    (h : List.dropWhile p l = l) :
    List.dropWhile p (List.rdropWhile p l) = List.rdropWhile p l := by
  cases hu : List.rdropWhile p l with
  | nil => rfl
  | cons b u =>
    cases l with
    | nil => simp at hu
    | cons a t =>
      have hpre := List.rdropWhile_prefix p (a :: t)
      rw [hu] at hpre
      obtain ⟨w, hw⟩ := hpre
      simp only [List.cons_append, List.cons.injEq] at hw
      obtain ⟨hba, -⟩ := hw
      have hpa : p a = false := by
        rw [List.dropWhile_cons] at h
        by_cases hp : p a
        · simp only [hp, if_true] at h
          have hlen : (List.dropWhile p t).length ≤ t.length :=
            (List.dropWhile_suffix p).length_le
          rw [h] at hlen
          simp at hlen
        · simpa using hp
      rw [List.dropWhile_cons, hba, hpa]
      simp

lemma stripL_idem (s : Str) : stripL (stripL s) = stripL s := by
  rw [stripL_eq, stripL_eq]
  have h2 := dropWhile_rdropWhile_of_self
    (List.dropWhile_idempotent (p := isSpaceC) (l := s))
  rw [h2, List.rdropWhile_idempotent]

lemma stripL_upperL (s : Str) : stripL (upperL s) = upperL (stripL s) := by
  have hc : (isSpaceC ∘ upC) = isSpaceC := funext upC_isSpace
  simp only [stripL, upperL, List.dropWhile_map, hc, ← List.map_reverse]

lemma upperL_idem (s : Str) : upperL (upperL s) = upperL s := by
  simp only [upperL, List.map_map]
  exact List.map_congr_left (fun a _ => upC_idem a)

lemma normStr_idem (s : Str) : normStr (normStr s) = normStr s := by
  unfold normStr
  rw [stripL_upperL, stripL_idem]
  exact upperL_idem _

/-! ### Predicate-equivalence lemmas -/

lemma specRoleMatch_eq (role : Str) : specRoleMatch role = roleMatch role := by
  have h1 : lowerL (strC "Support") = strC "support" := by decide
  have h2 : lowerL (strC "Idaptive") = strC "idaptive" := by decide
  have h3 : lowerL (strC "EPM") = strC "epm" := by decide
  rw [specRoleMatch, roleMatch, h1, h2, h3]

lemma rowValid_eq_spec (r : CaseRec) : rowValid r = specValidCase r := by
  unfold rowValid specValidCase rowNotna stripMemClose statusNotPurged
    recordExternal regionIn normStr
  cases r.close_reason <;> cases r.region <;>
    simp [specRoleMatch_eq, Bool.and_assoc, Bool.and_comm, Bool.and_left_comm]

lemma rowValidNoRegion_eq_spec (r : CaseRec) :
    rowValidNoRegion r = specValidNoAdminExcl r := by
  unfold rowValidNoRegion specValidNoAdminExcl rowNotna stripMemClose
    statusNotPurged recordExternal
  cases r.close_reason <;> simp [specRoleMatch_eq]

lemma lowC_not_upper (c : Nat) : ¬(65 ≤ lowC c ∧ lowC c ≤ 90) := by
  unfold lowC
  split_ifs <;> omega

lemma lowerL_beq_upperHead (s : Str) (h : Nat) (t : Str) (h1 : 65 ≤ h)
    (h2 : h ≤ 90) : (lowerL s == h :: t) = false := by
  apply beq_eq_false_iff_ne.mpr
  cases s with
  | nil => simp [lowerL]
  | cons a as =>
    intro he
    simp only [lowerL, List.map_cons, List.cons.injEq] at he
    obtain ⟨h3, -⟩ := he
    have h4 := lowC_not_upper a
    rw [h3] at h4
    exact h4 ⟨h1, h2⟩

lemma lowerL_memB_false (s : Str) (l : List Str)
    (hl : ∀ w ∈ l, ∃ h t, w = h :: t ∧ 65 ≤ h ∧ h ≤ 90) :
    memB (lowerL s) l = false := by
  induction l with
  | nil => rfl
  | cons w ws ih =>
    obtain ⟨h, t, hw, h1, h2⟩ := hl w (List.mem_cons_self w ws)
    simp only [memB, Bool.or_eq_false_iff]
    exact ⟨by rw [hw]; exact lowerL_beq_upperHead s h t h1 h2,
           ih (fun v hv => hl v (List.mem_cons_of_mem _ hv))⟩

lemma caseFoldMemClose_false (cr : Option Str) : caseFoldMemClose cr = false := by
  cases cr with
  | none => rfl
  | some s =>
    show memB (lowerL s) CLOSE_REASONS = false
    apply lowerL_memB_false
    intro w hw
    simp only [CLOSE_REASONS, List.mem_cons, List.not_mem_nil, or_false] at hw
    rcases hw with h | h | h | h | h <;> subst h
    · exact ⟨83, List.tail (strC "Solved by existing article"), by decide, by omega, by omega⟩
    · exact ⟨83, List.tail (strC "Solved by existing doc"), by decide, by omega, by omega⟩
    · exact ⟨65, List.tail (strC "Article Updated"), by decide, by omega, by omega⟩
    · exact ⟨65, List.tail (strC "Article Flagged"), by decide, by omega, by omega⟩
    · exact ⟨65, List.tail (strC "Article Created"), by decide, by omega, by omega⟩

lemma round3_zero : round3 0 = 0 := by decide

lemma ratioOf_eq (num den : Nat) :
    ratioOf num den =
      if den = 0 then none else some (round3 ((num : ℚ) / (den : ℚ))) := by
  unfold ratioOf
  split_ifs with h
  · rfl
  · rw [Rat.divInt_eq_div]
    push_cast
    rfl

/-! ### Claim theorems -/

/-- C1: for every case table, `close_reason_ratio(df, None)` returns
round(count(rows satisfying the full validity conjunction) / count(rows
with non-null close_reason), 3) when the denominator count is positive,
and None — never zero — when no non-null close_reason rows exist. -/
theorem spec2proof_c1 (df : List CaseRec) :
    closeReasonRatio df none =
      RatioResult.single
        (if df.countP (fun r => r.close_reason.isSome) = 0 then none
         else some (round3 ((df.countP specValidCase : ℚ) /
                            (df.countP (fun r => r.close_reason.isSome) : ℚ)))) := by
  have hv : df.countP rowValid = df.countP specValidCase :=
    List.countP_congr (fun r _ => by rw [rowValid_eq_spec r])
  have hn : df.countP rowNotna = df.countP (fun r => r.close_reason.isSome) := rfl
  simp only [closeReasonRatio, ratioOf_eq, hv, hn]

/-- C7: the month-week bucket assigned from a closed date has exact
boundaries — days 1–7 map to the bucket starting on day 1, days 8–14 to
day 8, days 15–21 to day 15, and day 22 through month end to day 22 —
with the year and month preserved. -/
theorem spec2proof_c7 (dt : TS) :
    ((1 ≤ dt.d → dt.d ≤ 7 → (getMonthWeekStart dt).d = 1)
      ∧ (8 ≤ dt.d → dt.d ≤ 14 → (getMonthWeekStart dt).d = 8)
      ∧ (15 ≤ dt.d → dt.d ≤ 21 → (getMonthWeekStart dt).d = 15)
      ∧ (22 ≤ dt.d → (getMonthWeekStart dt).d = 22))
      ∧ (getMonthWeekStart dt).y = dt.y ∧ (getMonthWeekStart dt).m = dt.m := by
  refine ⟨⟨?_, ?_, ?_, ?_⟩, ?_, ?_⟩ <;>
    intros <;> unfold getMonthWeekStart <;> split_ifs <;> simp_all <;> omega

/-- Witness for C7 at the boundary days the claim singles out: day 7 falls
in bucket 1, day 8 in bucket 8, day 21 in bucket 15, day 22 in bucket 22. -/
theorem spec2proof_c7_witness :
    (getMonthWeekStart ⟨2024, 5, 7, 0⟩).d = 1
      ∧ (getMonthWeekStart ⟨2024, 5, 8, 0⟩).d = 8
      ∧ (getMonthWeekStart ⟨2024, 5, 21, 0⟩).d = 15
      ∧ (getMonthWeekStart ⟨2024, 5, 22, 0⟩).d = 22 :=
  ⟨(spec2proof_c7 ⟨2024, 5, 7, 0⟩).1.1 (by decide) (by decide),
   (spec2proof_c7 ⟨2024, 5, 8, 0⟩).1.2.1 (by decide) (by decide),
   (spec2proof_c7 ⟨2024, 5, 21, 0⟩).1.2.2.1 (by decide) (by decide),
   (spec2proof_c7 ⟨2024, 5, 22, 0⟩).1.2.2.2 (by decide)⟩

/-- C6: the close-reason ratio reported by `osp_kcs_engagement` is either
None (exactly when no filtered row has a non-null close_reason) or exactly
0: the case-folded close_reason can never equal a member of the mixed-case
`CLOSE_REASONS` list, so the numerator is always zero. -/
theorem spec2proof_c6 (today : TS) (df : List CaseRec) :
    (ospKcsEngagement today df).close_reason_ratio =
      (if (ospKcsEngagement today df).close_reason_denom = 0 then none
       else some 0) := by
  have hnum : ∀ l : List CaseRec,
      l.countP (fun r => rowNotna r && caseFoldMemClose r.close_reason) = 0 :=
    fun l => List.countP_eq_zero.mpr (fun r _ => by simp [caseFoldMemClose_false])
  simp only [ospKcsEngagement]
  rw [hnum]
  unfold ratioOf
  split_ifs with h
  · rfl
  · simp [Rat.zero_divInt, round3_zero]

lemma filter_chain (df : List ArticleRec) (p1 p2 p3 p4 p5 : ArticleRec → Bool) :
    ((((df.filter p1).filter p2).filter p3).filter p4).filter p5 =
      df.filter (fun r => p1 r && p2 r && p3 r && p4 r && p5 r) := by
  simp only [List.filter_filter]
  apply List.filter_congr
  intro r _
  simp [Bool.and_assoc, Bool.and_comm, Bool.and_left_comm]

/-- C8: `count_published` counts distinct `article_id` values — not rows —
among the rows passing the type/creator/latest/Online filters whose
date-only `published_at` lies within the inclusive window; duplicated
article ids among qualifying rows contribute once. -/
theorem spec2proof_c8 (df : List ArticleRec) (start finish : TS) :
    countPublishedArticles df start finish =
      (uniqFirst ((df.filter (specPublishedInWindow start finish)).map
        (fun r => r.article_id))).length := by
  unfold countPublishedArticles
  simp only []
  rw [filter_chain]
  rfl

/-- C9: `median_days_to_publish` is the median of the non-null
`days_to_publish` values over the qualifying rows, and is None when no
rows qualify — in particular on any table whose rows all have
internal = true. -/
theorem spec2proof_c9 (df : List ArticleRec) :
    (medianDaysToPublish df =
      medianQ ((df.filter specMedianQualifies).filterMap (fun r => r.days_to_publish)))
    ∧ ((∀ r ∈ df, r.internal = true) → medianDaysToPublish df = none) := by
  have hmask : df.filter medianMask = df.filter specMedianQualifies :=
    List.filter_congr (fun r _ => rfl)
  constructor
  · unfold medianDaysToPublish
    simp only []
    rw [hmask]
    split_ifs with h
    · rw [List.isEmpty_iff.mp h]
      rfl
    · rfl
  · intro hint
    unfold medianDaysToPublish
    simp only []
    have hnil : df.filter medianMask = [] :=
      List.filter_eq_nil_iff.mpr (fun r hr => by simp [medianMask, hint r hr])
    rw [hnil]
    rfl

/-- Witness for C9: a one-row table whose only row has internal = true
yields an undefined median. -/
theorem spec2proof_c9_witness :
    medianDaysToPublish
      [{ article_id := strC "a1", article_type := strC "FAQ",
         creator_name := strC "c", version_is_latest := true,
         publish_status := strC "Online", visible_to_customers := true,
         internal := true, published_at := DateCell.val ⟨2024, 1, 2, 0⟩,
         published_by_name := strC "p", days_to_publish := some 3 }] = none :=
  (spec2proof_c9 _).2 (by decide)

/-- C4: `get_valid_cases_and_ratio` returns the region-restricted rows that
satisfy the validity rule without the ADMIN/INTERNAL exclusion, paired with
round(count(that subset)/count(non-null close_reason rows of the restricted
table), 3), undefined when the denominator is zero.  (The `"ALL"` region
argument, which the source treats as "no restriction", is excluded by the
hypothesis.) -/
theorem spec2proof_c4 (df : List CaseRec) (region : Option Str)
    (h : match region with
         | none => True
         | some s => ¬(upperL s = strC "ALL")) :
    getValidCasesAndRatio df region =
      ((specRegionRestrict df region).filter specValidNoAdminExcl,
       if (specRegionRestrict df region).countP (fun r => r.close_reason.isSome) = 0
       then none
       else some (round3
         (((specRegionRestrict df region).countP specValidNoAdminExcl : ℚ) /
          ((specRegionRestrict df region).countP
            (fun r => r.close_reason.isSome) : ℚ)))) := by
  have hnum : ∀ l : List CaseRec,
      l.countP rowValidNoRegion = l.countP specValidNoAdminExcl :=
    fun l => List.countP_congr (fun r _ => by rw [rowValidNoRegion_eq_spec r])
  have hfil : ∀ l : List CaseRec,
      l.filter rowValidNoRegion = l.filter specValidNoAdminExcl :=
    fun l => List.filter_congr (fun r _ => rowValidNoRegion_eq_spec r)
  cases region with
  | none =>
    unfold getValidCasesAndRatio specRegionRestrict
    simp only []
    rw [Prod.mk.injEq]
    refine ⟨hfil df, ?_⟩
    rw [hnum df, ratioOf_eq]
    rfl
  | some s =>
    have hb : (upperL s == strC "ALL") = false := beq_eq_false_iff_ne.mpr h
    unfold getValidCasesAndRatio specRegionRestrict
    simp only [hb, Bool.false_eq_true, if_false]
    rw [Prod.mk.injEq]
    refine ⟨hfil _, ?_⟩
    rw [hnum _, ratioOf_eq]
    rfl

/-- Witness for C4: a two-row table queried for region "emea" keeps exactly
the row whose region is " Emea " (case/whitespace-insensitive match) and
yields ratio 1. -/
theorem spec2proof_c4_witness :
    getValidCasesAndRatio
      [{ case_id := 1, created_date := ⟨2024, 1, 10, 0⟩, closed_date := none,
         region := some (strC " Emea "), owner_role := strC "Support",
         owner_company := strC "Solugenix", status := strC "Open",
         close_reason := some (strC "Article Created"),
         case_record_type := strC "External" },
       { case_id := 2, created_date := ⟨2024, 1, 11, 0⟩, closed_date := none,
         region := some (strC "APJ"), owner_role := strC "Support",
         owner_company := strC "Solugenix", status := strC "Open",
         close_reason := some (strC "Other"),
         case_record_type := strC "External" }]
      (some (strC "emea")) =
      ([{ case_id := 1, created_date := ⟨2024, 1, 10, 0⟩, closed_date := none,
          region := some (strC " Emea "), owner_role := strC "Support",
          owner_company := strC "Solugenix", status := strC "Open",
          close_reason := some (strC "Article Created"),
          case_record_type := strC "External" }], some 1) := by
  rw [spec2proof_c4 _ _ (by decide), ← ratioOf_eq]
  decide

/-- C3 (code reads the ambient current date): the same input table produces
different results from `close_reason_ratio_last_n_months` and from
`osp_kcs_engagement` when only the invocation date (the embedded
`pd.Timestamp.today()`) changes, refuting independence from global mutable
state. -/
theorem spec2proof_c3 :
    lastNMonths ⟨2024, 3, 1, 0⟩ 6 [probeCase]
        ≠ lastNMonths ⟨2030, 1, 1, 0⟩ 6 [probeCase]
      ∧ ospKcsEngagement ⟨2024, 3, 15, 45000⟩ [probeCase]
        ≠ ospKcsEngagement ⟨2024, 3, 15, 0⟩ [probeCase] := by
  decide

/-- C5 (failing input): with today = 2024-03-15 12:30:00, a case created
2024-02-01 00:00:00 lies in the immediately preceding full calendar month
(February 2024) and passes every other filter of `osp_kcs_engagement`, yet
the code's filtered set is empty: both window bounds carry today's
time-of-day, so the start bound 2024-02-01 12:30:00 excludes it. -/
theorem spec2proof_c5 :
    (ospKcsEngagement ⟨2024, 3, 15, 45000⟩ [probeCase]).filtered_df = []
      ∧ probeCase.created_date.y = 2024 ∧ probeCase.created_date.m = 2
      ∧ (stripL probeCase.case_record_type == strC "External") = true
      ∧ (hasSub (lowerL probeCase.owner_role) (strC "idaptive")
          || hasSub (lowerL probeCase.owner_role) (strC "support")) = true
      ∧ statusNotPurged probeCase = true
      ∧ memB probeCase.owner_company [strC "Solugenix", strC "Helpware"] = true := by
  decide

/-! ### Region-canonicalization lemmas for C2 -/

lemma normRegion_idem (reg : Option Str) :
    normRegion (normRegion reg) = normRegion reg := by
  cases reg with
  | none => rfl
  | some s =>
    show some (normStr (normStr s)) = some (normStr s)
    rw [normStr_idem]

lemma rowNotna_canon (r : CaseRec) : rowNotna (regionCanon r) = rowNotna r := rfl

lemma regionIn_canon (reg : Option Str) (l : List Str) :
    regionIn (normRegion reg) l = regionIn reg l := by
  cases reg with
  | none => rfl
  | some s =>
    show memB (normStr (normStr s)) l = memB (normStr s) l
    rw [normStr_idem]

lemma rowValid_canon (r : CaseRec) : rowValid (regionCanon r) = rowValid r := by
  show (rowNotna r && stripMemClose r.close_reason && statusNotPurged r
      && roleMatch r.owner_role && recordExternal r
      && !(regionIn (normRegion r.region) [strC "ADMIN", strC "INTERNAL"]))
    = rowValid r
  rw [regionIn_canon]
  rfl

lemma regKeyEq_canon (r : CaseRec) (key : Option Str) :
    regKeyEq (regionCanon r).region key = regKeyEq r.region key := by
  cases key with
  | none => rfl
  | some k =>
    show (normRegion (normRegion r.region) == some k) = (normRegion r.region == some k)
    rw [normRegion_idem]

lemma crrGlobal_canon (l : List CaseRec) :
    crrGlobal (l.map regionCanon) = crrGlobal l := by
  unfold crrGlobal
  rw [List.countP_map, List.countP_map]
  rw [show l.countP (rowValid ∘ regionCanon) = l.countP rowValid from
        List.countP_congr (fun r _ => by simp [rowValid_canon]),
      show l.countP (rowNotna ∘ regionCanon) = l.countP rowNotna from
        List.countP_congr (fun r _ => by simp [rowNotna_canon])]

/-- C2: replacing every record's region value by its trimmed, upper-cased
form changes no result of the region-keyed aggregations — any of the three
`close_reason_ratio` variants (overall, "ALL", specific region) and the
by-region month breakdown — so records whose regions differ only in letter
case or surrounding whitespace always land in the same region group. -/
theorem spec2proof_c2 (df : List CaseRec) (rg : Option Str) (today : TS) (n : Nat) :
    closeReasonRatio (df.map regionCanon) rg = closeReasonRatio df rg
      ∧ byRegionMonths today n (df.map regionCanon) = byRegionMonths today n df := by
  constructor
  · cases rg with
    | none =>
      unfold closeReasonRatio
      rw [List.countP_map, List.countP_map,
          show df.countP (rowValid ∘ regionCanon) = df.countP rowValid from
            List.countP_congr (fun r _ => by simp [rowValid_canon]),
          show df.countP (rowNotna ∘ regionCanon) = df.countP rowNotna from
            List.countP_congr (fun r _ => by simp [rowNotna_canon])]
    | some s =>
      simp only [closeReasonRatio]
      by_cases hall : (upperL s == strC "ALL") = true
      · rw [if_pos hall, if_pos hall]
        have hkeys : (df.map regionCanon).map (fun r => normRegion r.region)
            = df.map (fun r => normRegion r.region) := by
          rw [List.map_map]
          exact List.map_congr_left (fun r _ => normRegion_idem r.region)
        rw [hkeys]
        congr 1
        apply List.map_congr_left
        intro key _
        have hv : (df.map regionCanon).countP
              (fun r => rowValid r && regKeyEq r.region key)
            = df.countP (fun r => rowValid r && regKeyEq r.region key) := by
          rw [List.countP_map]
          exact List.countP_congr (fun r _ => by
            simp [rowValid_canon, regKeyEq_canon])
        have hn : (df.map regionCanon).countP
              (fun r => rowNotna r && regKeyEq r.region key)
            = df.countP (fun r => rowNotna r && regKeyEq r.region key) := by
          rw [List.countP_map]
          exact List.countP_congr (fun r _ => by
            simp [rowNotna_canon, regKeyEq_canon])
        rw [hv, hn]
      · rw [if_neg hall, if_neg hall]
        have hv : (df.map regionCanon).countP
              (fun r => rowValid r && (normRegion r.region == some (upperL s)))
            = df.countP (fun r => rowValid r && (normRegion r.region == some (upperL s))) := by
          rw [List.countP_map]
          exact List.countP_congr (fun r _ => by
            simp only [Function.comp_apply]
            show (rowValid (regionCanon r)
                && (normRegion (normRegion r.region) == some (upperL s))) = true
              ↔ _
            rw [rowValid_canon, normRegion_idem])
        have hn : (df.map regionCanon).countP
              (fun r => rowNotna r && (normRegion r.region == some (upperL s)))
            = df.countP (fun r => rowNotna r && (normRegion r.region == some (upperL s))) := by
          rw [List.countP_map]
          exact List.countP_congr (fun r _ => by
            simp only [Function.comp_apply]
            show (rowNotna (regionCanon r)
                && (normRegion (normRegion r.region) == some (upperL s))) = true
              ↔ _
            rw [rowNotna_canon, normRegion_idem])
        rw [hv, hn]
  · unfold byRegionMonths
    simp only []
    have hdff : (df.map regionCanon).filter
          (fun r => decide (monthIdx today - ((n : ℤ) - 1) ≤ monthIdx r.created_date))
        = (df.filter
            (fun r => decide (monthIdx today - ((n : ℤ) - 1) ≤ monthIdx r.created_date))).map
            regionCanon :=
      List.filter_map regionCanon df
    rw [hdff]
    have hkeys : ((df.filter
          (fun r => decide (monthIdx today - ((n : ℤ) - 1) ≤ monthIdx r.created_date))).map
          regionCanon).filterMap
          (fun r => (normRegion r.region).map (fun g => (monthIdx r.created_date, g)))
        = (df.filter
            (fun r => decide (monthIdx today - ((n : ℤ) - 1) ≤ monthIdx r.created_date))).filterMap
            (fun r => (normRegion r.region).map (fun g => (monthIdx r.created_date, g))) := by
      rw [List.filterMap_map]
      congr 1
      funext r
      show (normRegion (normRegion r.region)).map (fun g => (monthIdx r.created_date, g))
        = (normRegion r.region).map (fun g => (monthIdx r.created_date, g))
      rw [normRegion_idem]
    rw [hkeys]
    apply List.map_congr_left
    intro k _
    have hg : ((df.filter
          (fun r => decide (monthIdx today - ((n : ℤ) - 1) ≤ monthIdx r.created_date))).map
          regionCanon).filter
          (fun r => monthIdx r.created_date == k.1 && normRegion r.region == some k.2)
        = ((df.filter
            (fun r => decide (monthIdx today - ((n : ℤ) - 1) ≤ monthIdx r.created_date))).filter
            (fun r => monthIdx r.created_date == k.1 && normRegion r.region == some k.2)).map
            regionCanon := by
      rw [List.filter_map]
      refine congrArg _ (List.filter_congr (fun r _ => ?_))
      show (monthIdx r.created_date == k.1 && (normRegion (normRegion r.region) == some k.2))
        = (monthIdx r.created_date == k.1 && (normRegion r.region == some k.2))
      rw [normRegion_idem]
    rw [hg, crrGlobal_canon]

/-! ### Normalizer lemmas for C10 -/

lemma selectRename_spec (w : List (Str × Str)) (f : RawFrame) :
    match selectRename w f with
    | .error e => colLookup f e = none ∧ ∃ p ∈ w, p.1 = e
    | .ok g => List.Forall₂
        (fun (p : Str × Str) (q : Str × List Cell) =>
          q.1 = p.2 ∧ ∃ col, colLookup f p.1 = some col ∧ q.2 = col) w g := by
  induction w with
  | nil => exact List.Forall₂.nil
  | cons a rest ih =>
    obtain ⟨src, dst⟩ := a
    cases hc : colLookup f src with
    | none =>
      simp only [selectRename]
      rw [hc]
      exact ⟨hc, (src, dst), List.mem_cons_self _ _, rfl⟩
    | some col =>
      cases hrest : selectRename rest f with
      | error e =>
        simp only [selectRename, hc, hrest]
        rw [hrest] at ih
        obtain ⟨p, hp, he⟩ := ih.2
        exact ⟨ih.1, p, List.mem_cons_of_mem _ hp, he⟩
      | ok g =>
        simp only [selectRename, hc, hrest]
        rw [hrest] at ih
        exact List.Forall₂.cons ⟨rfl, col, hc, rfl⟩ ih

lemma selectRename_ok_of_presence (w : List (Str × Str)) (f : RawFrame)
    (h : ∀ p ∈ w, (colLookup f p.1).isSome) :
    ∃ g, selectRename w f = .ok g := by
  induction w with
  | nil => exact ⟨[], rfl⟩
  | cons a rest ih =>
    obtain ⟨src, dst⟩ := a
    obtain ⟨col, hc⟩ :=
      Option.isSome_iff_exists.mp (h (src, dst) (List.mem_cons_self _ _))
    obtain ⟨g, hg⟩ := ih (fun p hp => h p (List.mem_cons_of_mem _ hp))
    exact ⟨(dst, col) :: g, by simp [selectRename, hc, hg]⟩

lemma forall2_left_pred {α β : Type} {P : α → β → Prop} {Q : α → Prop}
    {l1 : List α} {l2 : List β} (h : List.Forall₂ P l1 l2)
    (hq : ∀ a b, P a b → Q a) : ∀ a ∈ l1, Q a := by
  induction h with
  | nil => intro a ha; simp at ha
  | cons hab _ ih =>
    intro a ha
    rcases List.mem_cons.mp ha with rfl | ha
    · exact hq _ _ hab
    · exact ih a ha

/-- C10: the Normalizer projects and renames exactly the canonical fields of
its (duplicate-key-resolved) field mapping, in mapping order, dropping
unknown source columns silently; it succeeds exactly when every expected
source field is present and otherwise fails naming a missing column; and the
only value transformation is coercing null view counts to integer 0. -/
theorem spec2proof_c10 :
    (∀ f : RawFrame,
       ((∃ g, cleanArticles f = Except.ok g) ↔
          ∀ p ∈ wantedArticles, (colLookup f p.1).isSome)
       ∧ (∀ e, cleanArticles f = Except.error e →
            colLookup f e = none ∧ ∃ p ∈ wantedArticles, p.1 = e)
       ∧ (∀ g, cleanArticles f = Except.ok g →
           List.Forall₂ (fun (p : Str × Str) (q : Str × List Cell) =>
             q.1 = p.2 ∧ ∃ col, colLookup f p.1 = some col ∧
               q.2 = (if p.2 == strC "views_by_customers"
                      then col.map coerceView else col))
             wantedArticles g))
    ∧ (∀ f : RawFrame,
       ((∃ g, cleanCases f = Except.ok g) ↔
          ∀ p ∈ wantedCases, (colLookup f p.1).isSome)
       ∧ (∀ e, cleanCases f = Except.error e →
            colLookup f e = none ∧ ∃ p ∈ wantedCases, p.1 = e)
       ∧ (∀ g, cleanCases f = Except.ok g →
           List.Forall₂ (fun (p : Str × Str) (q : Str × List Cell) =>
             q.1 = p.2 ∧ ∃ col, colLookup f p.1 = some col ∧ q.2 = col)
             wantedCases g)) := by
  constructor
  · intro f
    have hspec := selectRename_spec wantedArticles f
    refine ⟨⟨?_, ?_⟩, ?_, ?_⟩
    · rintro ⟨g, hg⟩
      unfold cleanArticles at hg
      cases hsel : selectRename wantedArticles f with
      | error e => rw [hsel] at hg; simp at hg
      | ok g0 =>
        rw [hsel] at hspec
        exact forall2_left_pred hspec (fun p q hpq => by
          obtain ⟨-, col, hcol, -⟩ := hpq
          simp [hcol])
    · intro hall
      obtain ⟨g0, hg0⟩ := selectRename_ok_of_presence wantedArticles f hall
      refine ⟨g0.map (fun p =>
        if p.1 == strC "views_by_customers"
        then (p.1, p.2.map coerceView) else p), ?_⟩
      unfold cleanArticles
      rw [hg0]
    · intro e he
      unfold cleanArticles at he
      cases hsel : selectRename wantedArticles f with
      | error e0 =>
        rw [hsel] at hspec he
        simp only [Except.error.injEq] at he
        rw [← he]
        exact hspec
      | ok g0 => rw [hsel] at he; simp at he
    · intro g hg
      unfold cleanArticles at hg
      cases hsel : selectRename wantedArticles f with
      | error e => rw [hsel] at hg; simp at hg
      | ok g0 =>
        rw [hsel] at hspec hg
        have hmap : g0.map (fun p =>
            if p.1 == strC "views_by_customers"
            then (p.1, p.2.map coerceView) else p) = g := by simpa using hg
        rw [← hmap, List.forall₂_map_right_iff]
        apply List.Forall₂.imp ?_ hspec
        intro p q hpq
        obtain ⟨hq1, col, hcol, hq2⟩ := hpq
        by_cases hvb : (p.2 == strC "views_by_customers") = true
        · have hq1v : (q.1 == strC "views_by_customers") = true := by
            rw [hq1]; exact hvb
          refine ⟨?_, col, hcol, ?_⟩
          · simp only [hq1v, if_true]
            exact hq1
          · simp only [hq1v, hvb, if_true]
            rw [hq2]
        · have hvbf : (p.2 == strC "views_by_customers") = false :=
            Bool.eq_false_iff.mpr hvb
          have hq1v : (q.1 == strC "views_by_customers") = false := by
            rw [hq1]; exact hvbf
          refine ⟨?_, col, hcol, ?_⟩
          · simp only [hq1v, Bool.false_eq_true, if_false]
            exact hq1
          · simp only [hq1v, hvbf, Bool.false_eq_true, if_false]
            exact hq2
  · intro f
    have hspec := selectRename_spec wantedCases f
    refine ⟨⟨?_, ?_⟩, ?_, ?_⟩
    · rintro ⟨g, hg⟩
      unfold cleanCases at hg
      rw [hg] at hspec
      exact forall2_left_pred hspec (fun p q hpq => by
        obtain ⟨-, col, hcol, -⟩ := hpq
        simp [hcol])
    · intro hall
      exact selectRename_ok_of_presence wantedCases f hall
    · intro e he
      unfold cleanCases at he
      rw [he] at hspec
      exact hspec
    · intro g hg
      unfold cleanCases at hg
      rw [hg] at hspec
      exact hspec

/-- Witness for C10: a raw case frame carrying all fifteen expected source
columns is cleaned successfully. -/
theorem spec2proof_c10_witness :
    ∃ g, cleanCases
      [(strC "CASE_NUMBER", []), (strC "CREATED_DATE", []),
       (strC "CLOSED_DATE", []), (strC "REGION", []), (strC "PRODUCT", []),
       (strC "OWNER_NAME", []), (strC "CREATED_BY_REGION", []),
       (strC "AGE", []), (strC "CUSTOMER_ACCOUNT_REGION", []),
       (strC "ATTACHED_ARTICLE_COUNT", []), (strC "CLOSE_REASON", []),
       (strC "STATUS", []), (strC "RECORD_TYPE", []),
       (strC "OWNER_ROLE", []), (strC "OWNER_COMPANY", [])] = Except.ok g :=
  ((spec2proof_c10.2 _).1).mpr (by decide)
